import Mathlib

/-!
Verification of the coordinate-scaling and action-dispatch core of a
computer-use game tool (`computer_use_demo/tools/game.py`).

The Python source is shallowly embedded: pure helpers become Lean
functions, the float arithmetic of `scale_coordinates` is modelled over
`ℚ` (Python `round` is modelled as round-half-to-even on the exact
rational value), side-effecting `pyautogui` calls become an explicit
trace of primitive events, and functions that may `raise ToolError`
return `Except String`.
-/

set_option maxHeartbeats 1000000

namespace MCU

/-! ### Python string semantics helpers -/

/-- Does the list `s` begin with the list `p`?  (Python `s.startswith(p)`
restricted to the character-list view of strings.) -/
def beginsWith : List Char → List Char → Bool
  | [], _ => true
  | _ :: _, [] => false
  | a :: as, b :: bs => a == b && beginsWith as bs

/-- Python `needle in hay` on strings: contiguous-substring containment
(the empty string is contained in everything). -/
def pyInStr : List Char → List Char → Bool
  | needle, [] => needle.isEmpty
  | needle, c :: t => beginsWith needle (c :: t) || pyInStr needle t

/-- Python `s.split(sep)` for a single-character separator:
always returns at least one (possibly empty) piece. -/
def splitOnChar (sep : Char) : List Char → List (List Char)
  | [] => [[]]
  | x :: xs =>
    let r := splitOnChar sep xs
    if x = sep then [] :: r
    else
      match r with
      | [] => [[x]]
      | h :: t => (x :: h) :: t

/-- Python `s.lower()` (ASCII case folding, which is all the dispatcher uses). -/
def lowerStr (s : String) : String := String.mk (s.data.map Char.toLower)

/-- Python `round` on the exact rational value: round to nearest,
ties to even. -/
def pyRound (q : ℚ) : ℤ :=
  if q - ⌊q⌋ < 1 / 2 then ⌊q⌋
  else if 1 / 2 < q - ⌊q⌋ then ⌊q⌋ + 1
  else if 2 ∣ ⌊q⌋ then ⌊q⌋ else ⌊q⌋ + 1

/-! ### `game.py` module-level definitions -/

def TYPING_DELAY_MS : ℕ := 12
def TYPING_GROUP_SIZE : ℕ := 50

/-- The helper `chunks(s, chunk_size)` = `[s[i : i + chunk_size] for i in range(0, len(s), chunk_size)]`,
on the character-list view of the string. -/
def chunksL : List Char → ℕ → List (List Char)
  | _, 0 => []
  | [], _ + 1 => []
  | x :: xs, n + 1 =>
    (x :: xs).take (n + 1) :: chunksL ((x :: xs).drop (n + 1)) (n + 1)
termination_by l _ => l.length
decreasing_by simp only [List.length_drop, List.length_cons]; omega

def chunks (s : String) (chunk_size : ℕ) : List String :=
  (chunksL s.data chunk_size).map String.mk

structure Resolution where
  width : ℕ
  height : ℕ
deriving DecidableEq, Repr

/-- The ordered scaling-target table (Python dict preserves insertion
order: XGA, WXGA, FWXGA). -/
def MAX_SCALING_TARGETS : List Resolution :=
  [⟨1024, 768⟩, ⟨1280, 800⟩, ⟨1366, 768⟩]

inductive ScalingSource
  | COMPUTER
  | API
deriving DecidableEq, Repr

structure ComputerToolOptions where
  display_height_px : ℤ
  display_width_px : ℤ
  display_number : Option ℤ
deriving DecidableEq, Repr

/-- The tool's per-session configuration: `width`/`height` from the
environment, `display_num`, and the `_scaling_enabled` class flag. -/
structure GameTool where
  width : ℕ
  height : ℕ
  scaling_enabled : Bool
  display_num : Option ℤ
deriving DecidableEq, Repr

/-- The aspect-ratio tolerance test of the selection loop:
`abs(dimension.width / dimension.height - ratio) < 0.02`. -/
def ratioNear (d : Resolution) (ratio : ℚ) : Prop :=
  |(d.width : ℚ) / (d.height : ℚ) - ratio| < 1 / 50

instance (d : Resolution) (ratio : ℚ) : Decidable (ratioNear d ratio) := by
  unfold ratioNear; infer_instance

/-- The selection loop `for dimension in MAX_SCALING_TARGETS.values(): ... break` of
`scale_coordinates`: the `break` fires at the first aspect-ratio match
whether or not the width test holds. -/
def findTarget : List Resolution → ℚ → ℕ → Option Resolution
  | [], _, _ => none
  | d :: rest, ratio, w =>
    if ratioNear d ratio then
      (if d.width < w then some d else none)
    else findTarget rest ratio w

/-- Target selection for a configured resolution (lines 342-349 of the loop). -/
def selectTarget (w h : ℕ) : Option Resolution :=
  findTarget MAX_SCALING_TARGETS ((w : ℚ) / (h : ℚ)) w

def boundsMsg (x y : ℤ) : String := s!"Coordinates {x}, {y} are out of bounds"

/-- The method `GameTool.scale_coordinates`. -/
def GameTool.scale_coordinates (self : GameTool) (source : ScalingSource)
    (x y : ℤ) : Except String (ℤ × ℤ) :=
  if self.scaling_enabled = false then .ok (x, y)
  else
    match selectTarget self.width self.height with
    | none => .ok (x, y)
    | some target_dimension =>
      let x_scaling_factor : ℚ := (target_dimension.width : ℚ) / (self.width : ℚ)
      let y_scaling_factor : ℚ := (target_dimension.height : ℚ) / (self.height : ℚ)
      match source with
      | .API =>
        if (self.width : ℤ) < x ∨ (self.height : ℤ) < y then
          .error (boundsMsg x y)
        else
          .ok (pyRound ((x : ℚ) / x_scaling_factor), pyRound ((y : ℚ) / y_scaling_factor))
      | .COMPUTER =>
        .ok (pyRound ((x : ℚ) * x_scaling_factor), pyRound ((y : ℚ) * y_scaling_factor))

/-- The property `GameTool.options`: the advertised dimensions are the configured ones
passed through the `COMPUTER` (scale-down) direction. -/
def GameTool.options (self : GameTool) : Except String ComputerToolOptions :=
  (self.scale_coordinates ScalingSource.COMPUTER (self.width : ℤ) (self.height : ℤ)).map
    fun p =>
      { display_width_px := p.1
        display_height_px := p.2
        display_number := self.display_num }

/-! ### Rounding lemmas -/

theorem pyRound_abs_sub (q : ℚ) : |(pyRound q : ℚ) - q| ≤ 1 / 2 := by
  have h0 : (⌊q⌋ : ℚ) ≤ q := Int.floor_le q
  have h1 : q < ⌊q⌋ + 1 := Int.lt_floor_add_one q
  unfold pyRound
  split_ifs with ha hb hc
  · rw [abs_le]; constructor <;> linarith
  · rw [abs_le]; push_cast; constructor <;> linarith
  · rw [abs_le]; constructor <;> linarith
  · rw [abs_le]; push_cast; constructor <;> linarith

theorem pyRound_intCast (n : ℤ) : pyRound (n : ℚ) = n := by
  unfold pyRound
  rw [Int.floor_intCast]
  simp

/-- Scaling up by `W / T` (rounding) and back down by `T / W` (rounding)
moves an integer by at most 1, provided `0 < T` and `2 * T < 3 * W`. -/
theorem pyRound_roundtrip (T W : ℚ) (hT : 0 < T) (hW : 0 < W)
    (h32 : 2 * T < 3 * W) (x : ℤ) :
    |pyRound ((pyRound ((x : ℚ) * W / T) : ℚ) * T / W) - x| ≤ 1 := by
  set p : ℤ := pyRound ((x : ℚ) * W / T) with hp
  set z : ℤ := pyRound ((p : ℚ) * T / W) with hz
  have e1 : |(p : ℚ) - (x : ℚ) * W / T| ≤ 1 / 2 := by rw [hp]; exact pyRound_abs_sub _
  have e2 : |(z : ℚ) - (p : ℚ) * T / W| ≤ 1 / 2 := by rw [hz]; exact pyRound_abs_sub _
  have hT0 : T ≠ 0 := ne_of_gt hT
  have hW0 : W ≠ 0 := ne_of_gt hW
  have hsplit : (z : ℚ) - (x : ℚ) =
      ((z : ℚ) - (p : ℚ) * T / W) + ((p : ℚ) - (x : ℚ) * W / T) * (T / W) := by
    field_simp
    ring
  have hTW1 : 0 < T / W := div_pos hT hW
  have hTW2 : T / W ≤ 3 / 2 := by
    rw [div_le_div_iff₀ hW (by norm_num)]
    linarith
  have habs : |((p : ℚ) - (x : ℚ) * W / T) * (T / W)| ≤ (1 / 2) * (3 / 2) := by
    rw [abs_mul, abs_of_pos hTW1]
    exact mul_le_mul e1 hTW2 (le_of_lt hTW1) (by norm_num)
  have key : |(z : ℚ) - (x : ℚ)| < 2 := by
    calc |(z : ℚ) - (x : ℚ)|
        ≤ |(z : ℚ) - (p : ℚ) * T / W| + |((p : ℚ) - (x : ℚ) * W / T) * (T / W)| := by
          rw [hsplit]; exact abs_add _ _
      _ ≤ 1 / 2 + (1 / 2) * (3 / 2) := by linarith
      _ < 2 := by norm_num
  have keyz : |z - x| < 2 := by
    have : |((z - x : ℤ) : ℚ)| < 2 := by push_cast; exact key
    exact_mod_cast this
  rw [abs_lt] at keyz
  rw [abs_le]
  omega

/-! ### Target-selection lemmas -/

theorem findTarget_eq_some {l : List Resolution} {r : ℚ} {w : ℕ} {t : Resolution}
    (h : findTarget l r w = some t) :
    t ∈ l ∧ t.width < w ∧ ratioNear t r := by
  induction l with
  | nil => simp [findTarget] at h
  | cons d rest ih =>
    rw [findTarget] at h
    by_cases hr : ratioNear d r
    · rw [if_pos hr] at h
      by_cases hw : d.width < w
      · rw [if_pos hw] at h
        obtain rfl : d = t := by injection h
        exact ⟨List.mem_cons_self _ _, hw, hr⟩
      · rw [if_neg hw] at h
        exact absurd h (by simp)
    · rw [if_neg hr] at h
      obtain ⟨hm, hw, hrr⟩ := ih h
      exact ⟨List.mem_cons_of_mem _ hm, hw, hrr⟩

/-- Everything the round-trip argument needs about a selected target:
positivity of its sides, strict width dominance, positivity of the
configured height, and the height ratio bound `2 * th < 3 * h`. -/
theorem selectTarget_bounds {w h : ℕ} {t : Resolution}
    (hsel : selectTarget w h = some t) :
    0 < t.width ∧ 0 < t.height ∧ t.width < w ∧ 0 < h ∧
      2 * (t.height : ℚ) < 3 * (h : ℚ) := by
  obtain ⟨hmem, hwlt, hnear⟩ := findTarget_eq_some hsel
  rw [ratioNear, abs_lt] at hnear
  obtain ⟨hlo, hhi⟩ := hnear
  simp only [MAX_SCALING_TARGETS, List.mem_cons, List.not_mem_nil, or_false] at hmem
  rcases hmem with rfl | rfl | rfl
  · have hh0 : 0 < h := by
      rcases Nat.eq_zero_or_pos h with hz | hp
      · subst hz; norm_num at hhi
      · exact hp
    have hhq : (0 : ℚ) < (h : ℚ) := by exact_mod_cast hh0
    have hwq : (1024 : ℚ) < (w : ℚ) := by exact_mod_cast hwlt
    have hx : (w : ℚ) / (h : ℚ) < 203 / 150 := by norm_num at hlo; linarith
    rw [div_lt_iff₀ hhq] at hx
    exact ⟨by norm_num, by norm_num, hwlt, hh0, by norm_num; linarith⟩
  · have hh0 : 0 < h := by
      rcases Nat.eq_zero_or_pos h with hz | hp
      · subst hz; norm_num at hhi
      · exact hp
    have hhq : (0 : ℚ) < (h : ℚ) := by exact_mod_cast hh0
    have hwq : (1280 : ℚ) < (w : ℚ) := by exact_mod_cast hwlt
    have hx : (w : ℚ) / (h : ℚ) < 81 / 50 := by norm_num at hlo; linarith
    rw [div_lt_iff₀ hhq] at hx
    exact ⟨by norm_num, by norm_num, hwlt, hh0, by norm_num; linarith⟩
  · have hh0 : 0 < h := by
      rcases Nat.eq_zero_or_pos h with hz | hp
      · subst hz; norm_num at hhi
      · exact hp
    have hhq : (0 : ℚ) < (h : ℚ) := by exact_mod_cast hh0
    have hwq : (1366 : ℚ) < (w : ℚ) := by exact_mod_cast hwlt
    have hx : (w : ℚ) / (h : ℚ) < 17267 / 9600 := by norm_num at hlo; linarith
    rw [div_lt_iff₀ hhq] at hx
    exact ⟨by norm_num, by norm_num, hwlt, hh0, by norm_num; linarith⟩

/-! ### Unfolding lemmas for `scale_coordinates` -/

theorem scale_coordinates_api (self : GameTool) (hs : self.scaling_enabled = true)
    (t : Resolution) (ht : selectTarget self.width self.height = some t) (x y : ℤ) :
    self.scale_coordinates ScalingSource.API x y =
      if (self.width : ℤ) < x ∨ (self.height : ℤ) < y then .error (boundsMsg x y)
      else
        .ok (pyRound ((x : ℚ) / ((t.width : ℚ) / (self.width : ℚ))),
             pyRound ((y : ℚ) / ((t.height : ℚ) / (self.height : ℚ)))) := by
  simp only [GameTool.scale_coordinates, hs, Bool.true_eq_false, if_false, ht]

theorem scale_coordinates_computer (self : GameTool) (hs : self.scaling_enabled = true)
    (t : Resolution) (ht : selectTarget self.width self.height = some t) (x y : ℤ) :
    self.scale_coordinates ScalingSource.COMPUTER x y =
      .ok (pyRound ((x : ℚ) * ((t.width : ℚ) / (self.width : ℚ))),
           pyRound ((y : ℚ) * ((t.height : ℚ) / (self.height : ℚ)))) := by
  simp only [GameTool.scale_coordinates, hs, Bool.true_eq_false, if_false, ht]

theorem scale_coordinates_id (self : GameTool)
    (hid : self.scaling_enabled = false ∨ selectTarget self.width self.height = none)
    (s : ScalingSource) (x y : ℤ) :
    self.scale_coordinates s x y = .ok (x, y) := by
  rcases hid with hs | hn
  · simp [GameTool.scale_coordinates, hs]
  · rcases hb : self.scaling_enabled with hf | ht
    · simp [GameTool.scale_coordinates, hb]
    · simp [GameTool.scale_coordinates, hb, hn]

/-! ### Claim theorems: coordinate mapping -/

/-- Claim C1: whenever a scaling target is selected, mapping a coordinate
pair inside the configured bounds agent→physical (`API`) and back
physical→agent (`COMPUTER`) lands within 1 of the original on each axis. -/
theorem claim1_roundtrip (self : GameTool) (t : Resolution)
    (hs : self.scaling_enabled = true)
    (ht : selectTarget self.width self.height = some t)
    (x y : ℤ) (hx0 : 0 ≤ x) (hx : x ≤ (self.width : ℤ))
    (hy0 : 0 ≤ y) (hy : y ≤ (self.height : ℤ)) :
    ∃ p q : ℤ × ℤ,
      self.scale_coordinates ScalingSource.API x y = .ok p ∧
      self.scale_coordinates ScalingSource.COMPUTER p.1 p.2 = .ok q ∧
      |q.1 - x| ≤ 1 ∧ |q.2 - y| ≤ 1 := by
  obtain ⟨htw, hth, hlt, hh0, h23⟩ := selectTarget_bounds ht
  have hw0 : 0 < self.width := lt_trans htw hlt
  have hWq : (0 : ℚ) < (self.width : ℚ) := by exact_mod_cast hw0
  have hHq : (0 : ℚ) < (self.height : ℚ) := by exact_mod_cast hh0
  have hTx : (0 : ℚ) < (t.width : ℚ) := by exact_mod_cast htw
  have hTy : (0 : ℚ) < (t.height : ℚ) := by exact_mod_cast hth
  have h32x : 2 * (t.width : ℚ) < 3 * (self.width : ℚ) := by
    have hc : (t.width : ℚ) < (self.width : ℚ) := by exact_mod_cast hlt
    linarith
  have hapi := scale_coordinates_api self hs t ht x y
  rw [if_neg (not_or.mpr ⟨not_lt.mpr hx, not_lt.mpr hy⟩)] at hapi
  set px : ℤ := pyRound ((x : ℚ) / ((t.width : ℚ) / (self.width : ℚ))) with hpx
  set py : ℤ := pyRound ((y : ℚ) / ((t.height : ℚ) / (self.height : ℚ))) with hpy
  refine ⟨(px, py),
    (pyRound ((px : ℚ) * ((t.width : ℚ) / (self.width : ℚ))),
     pyRound ((py : ℚ) * ((t.height : ℚ) / (self.height : ℚ)))),
    hapi, scale_coordinates_computer self hs t ht px py, ?_, ?_⟩
  · show |pyRound ((px : ℚ) * ((t.width : ℚ) / (self.width : ℚ))) - x| ≤ 1
    have hgen := pyRound_roundtrip (t.width : ℚ) (self.width : ℚ) hTx hWq h32x x
    rw [← mul_div_assoc, hpx, div_div_eq_mul_div]
    exact hgen
  · show |pyRound ((py : ℚ) * ((t.height : ℚ) / (self.height : ℚ))) - y| ≤ 1
    have hgen := pyRound_roundtrip (t.height : ℚ) (self.height : ℚ) hTy hHq h23 y
    rw [← mul_div_assoc, hpy, div_div_eq_mul_div]
    exact hgen

/-- Predicate `FirstMatch r l t`: `t` is the first entry of `l` whose aspect ratio
is within the tolerance of `r` (the entries before it all fail the
ratio test). -/
inductive FirstMatch (r : ℚ) : List Resolution → Resolution → Prop
  | head {d : Resolution} {rest : List Resolution} :
      ratioNear d r → FirstMatch r (d :: rest) d
  | tail {d e : Resolution} {rest : List Resolution} :
      ¬ ratioNear d r → FirstMatch r rest e → FirstMatch r (d :: rest) e

theorem findTarget_none_of_first {r : ℚ} {w : ℕ} {t : Resolution}
    {l : List Resolution} (hfm : FirstMatch r l t) (hw : w ≤ t.width) :
    findTarget l r w = none := by
  induction hfm with
  | head hnear => rw [findTarget, if_pos hnear, if_neg (not_lt.mpr hw)]
  | tail hnot _ ih => rw [findTarget, if_neg hnot]; exact ih hw

/-- Claim C2: if the first aspect-ratio match in table order has width at
least the configured width, the scan short-circuits, no target is
selected, and both mapping directions are the identity. -/
theorem claim2_short_circuit (self : GameTool) (t : Resolution)
    (hfm : FirstMatch ((self.width : ℚ) / (self.height : ℚ)) MAX_SCALING_TARGETS t)
    (hwide : self.width ≤ t.width) :
    selectTarget self.width self.height = none ∧
    ∀ (s : ScalingSource) (x y : ℤ), self.scale_coordinates s x y = .ok (x, y) := by
  have hnone : selectTarget self.width self.height = none :=
    findTarget_none_of_first hfm hwide
  exact ⟨hnone, fun s x y => scale_coordinates_id self (Or.inr hnone) s x y⟩

/-- Claim C3: with a target selected, the agent→physical direction errors
exactly when a component exceeds the configured dimension, and otherwise
divides each component by its scale factor and rounds. -/
theorem claim3_api_bounds (self : GameTool) (t : Resolution)
    (hs : self.scaling_enabled = true)
    (ht : selectTarget self.width self.height = some t) (x y : ℤ) :
    ((∃ e, self.scale_coordinates ScalingSource.API x y = .error e) ↔
      ((self.width : ℤ) < x ∨ (self.height : ℤ) < y)) ∧
    (x ≤ (self.width : ℤ) → y ≤ (self.height : ℤ) →
      self.scale_coordinates ScalingSource.API x y =
        .ok (pyRound ((x : ℚ) / ((t.width : ℚ) / (self.width : ℚ))),
             pyRound ((y : ℚ) / ((t.height : ℚ) / (self.height : ℚ))))) := by
  have hapi := scale_coordinates_api self hs t ht x y
  constructor
  · constructor
    · rintro ⟨e, he⟩
      by_contra hc
      rw [if_neg hc] at hapi
      rw [hapi] at he
      exact absurd he (by simp)
    · intro hc
      rw [if_pos hc] at hapi
      exact ⟨boundsMsg x y, hapi⟩
  · intro h1 h2
    rw [if_neg (not_or.mpr ⟨not_lt.mpr h1, not_lt.mpr h2⟩)] at hapi
    exact hapi

/-- Claim C7: with scaling disabled, both directions of
`scale_coordinates` return their input unchanged and never raise. -/
theorem claim7_disabled_identity (self : GameTool)
    (hs : self.scaling_enabled = false) (s : ScalingSource) (x y : ℤ) :
    self.scale_coordinates s x y = .ok (x, y) :=
  scale_coordinates_id self (Or.inl hs) s x y

/-- Claim C9: the advertised options are the configured dimensions mapped
through the scale-down direction: the selected target's dimensions when
one is selected (never the raw configured ones), and the configured
dimensions when scaling is disabled or no target is selected. -/
theorem claim9_options (self : GameTool) :
    (∀ t : Resolution, self.scaling_enabled = true →
      selectTarget self.width self.height = some t →
      self.options = .ok
        { display_width_px := (t.width : ℤ)
          display_height_px := (t.height : ℤ)
          display_number := self.display_num } ∧
      t.width < self.width) ∧
    ((self.scaling_enabled = false ∨ selectTarget self.width self.height = none) →
      self.options = .ok
        { display_width_px := (self.width : ℤ)
          display_height_px := (self.height : ℤ)
          display_number := self.display_num }) := by
  constructor
  · intro t hs ht
    obtain ⟨htw, hth, hlt, hh0, h23⟩ := selectTarget_bounds ht
    have hw0 : 0 < self.width := lt_trans htw hlt
    have hWq : ((self.width : ℚ)) ≠ 0 := by positivity
    have hHq : ((self.height : ℚ)) ≠ 0 := by positivity
    have hcomp := scale_coordinates_computer self hs t ht
      (self.width : ℤ) (self.height : ℤ)
    have ew : (((self.width : ℤ) : ℚ)) * ((t.width : ℚ) / (self.width : ℚ)) =
        ((t.width : ℤ) : ℚ) := by
      push_cast
      rw [← mul_div_assoc, mul_div_cancel_left₀ _ hWq]
    have eh : (((self.height : ℤ) : ℚ)) * ((t.height : ℚ) / (self.height : ℚ)) =
        ((t.height : ℤ) : ℚ) := by
      push_cast
      rw [← mul_div_assoc, mul_div_cancel_left₀ _ hHq]
    rw [ew, eh, pyRound_intCast, pyRound_intCast] at hcomp
    refine ⟨?_, hlt⟩
    rw [GameTool.options, hcomp]
    rfl
  · intro hid
    rw [GameTool.options, scale_coordinates_id self hid]
    rfl

/-! ### The action dispatcher (`GameTool.__call__`) -/

/-- A runtime value that may arrive in the `coordinate` array: either a
Python `int` or something that fails the `isinstance(i, int)` check. -/
inductive PyVal
  | int (n : ℤ)
  | nonInt
deriving DecidableEq, Repr

/-- The check `isinstance(i, int) and i >= 0`. -/
def PyVal.isNonnegInt : PyVal → Bool
  | .int n => decide (0 ≤ n)
  | .nonInt => false

/-- Extract the integer (only consulted after validation has ensured it). -/
def PyVal.asInt : PyVal → ℤ
  | .int n => n
  | .nonInt => 0

/-- The result envelope. -/
structure ToolResult where
  output : Option String := none
  error : Option String := none
  base64_image : Option String := none
deriving DecidableEq, Repr

def outputResult (s : String) : ToolResult := { output := some s }

/-- One OS-level input primitive invocation (`pyautogui` call). -/
inductive Prim
  | moveTo (x y : ℤ)
  | dragTo (x y : ℤ)
  | keyDown (k : String)
  | keyUp (k : String)
  | press (k : String)
  | sleepSec (s : ℕ)
  | write (chunk : String) (delayMs : ℕ)
  | click
  | rightClick
  | middleClick
  | doubleClick
  | mouseDown
  | mouseUp
deriving DecidableEq, Repr

/-- The environment the dispatcher observes: the screenshot pipeline's
outcome and the physical cursor position. -/
structure Env where
  shotOk : Bool
  shot : String
  shotStdout : String
  shotStderr : String
  posX : ℤ
  posY : ℤ
deriving DecidableEq, Repr

/-- The method `GameTool.screenshot`: returns the capture shell result with the
base64 image attached, or raises when the file is absent. -/
def screenshotRun (env : Env) : Except String ToolResult :=
  if env.shotOk then
    .ok { output := some env.shotStdout
          error := some env.shotStderr
          base64_image := some env.shot }
  else .error ("Failed to take screenshot: " ++ env.shotStderr)

def clickPrim : String → Prim
  | "left_click" => Prim.click
  | "right_click" => Prim.rightClick
  | "middle_click" => Prim.middleClick
  | _ => Prim.doubleClick

/-- The method `GameTool.__call__`: validates the request and routes it, returning
the trace of input primitives together with the result envelope, or the
`ToolError` message. -/
def GameTool.call (self : GameTool) (env : Env) (action : String)
    (text : Option String) (coordinate : Option (List PyVal)) :
    Except String (List Prim × ToolResult) :=
  if action ∈ ["mouse_move", "left_click_drag"] then
    match coordinate with
    | none => .error s!"coordinate is required for {action}"
    | some coord =>
      if text.isSome then .error s!"text is not accepted for {action}"
      else if coord.length ≠ 2 then
        .error s!"coordinate must be a tuple of length 2"
      else if ¬ (coord.all PyVal.isNonnegInt) then
        .error s!"coordinate must be a tuple of non-negative ints"
      else
        match self.scale_coordinates ScalingSource.API
            ((coord.getD 0 (.int 0)).asInt) ((coord.getD 1 (.int 0)).asInt) with
        | .error e => .error e
        | .ok (x, y) =>
          if action = "mouse_move" then
            .ok ([Prim.moveTo x y], outputResult s!"Moved mouse to {x},{y}")
          else
            .ok ([Prim.dragTo x y], outputResult s!"Dragged mouse to {x},{y}")
  else if action ∈ ["key", "type"] then
    match text with
    | none => .error s!"text is required for {action}"
    | some t =>
      if coordinate.isSome then .error s!"coordinate is not accepted for {action}"
      else if action = "key" then
        if pyInStr (lowerStr t).data "wasd".data then
          .ok ([Prim.keyDown (lowerStr t), Prim.sleepSec 1, Prim.keyUp (lowerStr t)],
               outputResult s!"Pressed key: {t}")
        else if pyInStr (lowerStr t).data "abcdefghijklmnopqrstuvwxyz".data then
          .ok ([Prim.press (lowerStr t)], outputResult s!"Pressed key: {t}")
        else if pyInStr t.data "1234567890".data then
          .ok ([Prim.press t], outputResult s!"Pressed key: {t}")
        else if lowerStr t = "return" then
          .ok ([Prim.press "enter"], outputResult s!"Pressed key: {t}")
        else if lowerStr t ∈ ["right-arrow", "right", "left-arrow", "left",
            "up-arrow", "up", "down-arrow", "down"] then
          .ok ([Prim.press (lowerStr (String.mk ((splitOnChar '-' t.data).headD [])))],
               outputResult s!"Pressed key: {t}")
        else
          .ok ([Prim.press (lowerStr t)], outputResult s!"Pressed key: {t}")
      else
        match screenshotRun env with
        | .error e => .error e
        | .ok shotRes =>
          .ok ((chunks t TYPING_GROUP_SIZE).map (fun c => Prim.write c TYPING_DELAY_MS),
               { output := some s!"Typed: {t}"
                 error := none
                 base64_image := shotRes.base64_image })
  else if action ∈ ["left_click", "right_click", "double_click", "middle_click",
      "screenshot", "cursor_position"] then
    if text.isSome then .error s!"text is not accepted for {action}"
    else if coordinate.isSome then .error s!"coordinate is not accepted for {action}"
    else if action = "screenshot" then
      match screenshotRun env with
      | .error e => .error e
      | .ok shotRes => .ok ([], shotRes)
    else if action = "cursor_position" then
      match self.scale_coordinates ScalingSource.COMPUTER env.posX env.posY with
      | .error e => .error e
      | .ok (x, y) => .ok ([], outputResult s!"X={x},Y={y}")
    else
      .ok ([clickPrim action], outputResult s!"Performed {action}")
  else if action = "left_down" then
    .ok ([Prim.mouseDown], outputResult s!"Performed {action}")
  else if action = "left_up" then
    .ok ([Prim.mouseUp], outputResult s!"Performed {action}")
  else if beginsWith "hold_arrow_".data action.data then
    .ok ([Prim.keyDown (String.mk ((splitOnChar '_' action.data).getLastD []))],
         outputResult s!"Performed {action}")
  else if beginsWith "release_arrow_".data action.data then
    .ok ([Prim.keyUp (String.mk ((splitOnChar '_' action.data).getLastD []))],
         outputResult s!"Performed {action}")
  else .error s!"Invalid action: {action}"

/-! ### Characterisations of the string helpers -/

theorem beginsWith_iff : ∀ (p l : List Char), beginsWith p l = true ↔ ∃ q, l = p ++ q
  | [], l => by
    simp [beginsWith]
  | a :: as, [] => by
    simp [beginsWith]
  | a :: as, b :: bs => by
    rw [beginsWith, Bool.and_eq_true, beq_iff_eq, beginsWith_iff as bs]
    constructor
    · rintro ⟨rfl, q, rfl⟩
      exact ⟨q, rfl⟩
    · rintro ⟨q, h⟩
      injection h with h1 h2
      exact ⟨h1.symm, q, h2⟩

theorem pyInStr_iff : ∀ (n h : List Char), pyInStr n h = true ↔ ∃ p q, h = p ++ n ++ q
  | n, [] => by
    rw [pyInStr, List.isEmpty_iff]
    constructor
    · rintro rfl
      exact ⟨[], [], rfl⟩
    · rintro ⟨p, q, hpq⟩
      rcases List.append_eq_nil.mp (List.append_eq_nil.mp hpq.symm).1 with ⟨-, h2⟩
      exact h2
  | n, c :: ct => by
    rw [pyInStr, Bool.or_eq_true, beginsWith_iff, pyInStr_iff n ct]
    constructor
    · rintro (⟨q, hq⟩ | ⟨p, q, hq⟩)
      · exact ⟨[], q, by simp only [List.nil_append]; exact hq⟩
      · exact ⟨c :: p, q, by rw [hq]; rfl⟩
    · rintro ⟨p, q, hp⟩
      cases p with
      | nil => exact Or.inl ⟨q, by simpa using hp⟩
      | cons d ds =>
        injection hp with h1 h2
        exact Or.inr ⟨ds, q, h2⟩

theorem pyInStr_mem {n h : List Char} (hin : pyInStr n h = true) :
    ∀ c ∈ n, c ∈ h := by
  obtain ⟨p, q, rfl⟩ := (pyInStr_iff n h).mp hin
  intro c hc
  simp only [List.mem_append]
  exact Or.inl (Or.inr hc)

/-- A string contained in `"1234567890"` consists of digits, which are
fixed by lower-casing. -/
theorem lowerStr_of_digits {t : String}
    (h : pyInStr t.data "1234567890".data = true) : lowerStr t = t := by
  have hmem := pyInStr_mem h
  have hmap : t.data.map Char.toLower = t.data := by
    have hcg : t.data.map Char.toLower = t.data.map id :=
      List.map_congr_left fun c hc => by
        have hcd := hmem c hc
        rw [show "1234567890".data =
          ['1', '2', '3', '4', '5', '6', '7', '8', '9', '0'] from rfl] at hcd
        fin_cases hcd <;> rfl
    rw [hcg, List.map_id]
  cases t with
  | mk l =>
    show String.mk (l.map Char.toLower) = String.mk l
    rw [show (String.mk l).data = l from rfl] at hmap
    rw [hmap]

/-! ### Chunking lemmas -/

theorem chunksL_join (n : ℕ) : ∀ l : List Char, (chunksL l (n + 1)).flatten = l
  | [] => by rw [chunksL]; rfl
  | x :: xs => by
    rw [chunksL, List.flatten_cons, chunksL_join n ((x :: xs).drop (n + 1))]
    exact List.take_append_drop _ _
termination_by l => l.length
decreasing_by simp only [List.length_drop, List.length_cons]; omega

theorem chunksL_length_le (n : ℕ) : ∀ l : List Char,
    ∀ c ∈ chunksL l (n + 1), c.length ≤ n + 1
  | [] => by rw [chunksL]; intro c hc; exact absurd hc (List.not_mem_nil c)
  | x :: xs => by
    intro c hc
    rw [chunksL] at hc
    rcases List.mem_cons.mp hc with rfl | hmem
    · simpa using List.length_take_le (n + 1) (x :: xs)
    · exact chunksL_length_le n ((x :: xs).drop (n + 1)) c hmem
termination_by l => l.length
decreasing_by simp only [List.length_drop, List.length_cons]; omega

theorem chunksL_dropLast_length (n : ℕ) : ∀ l : List Char,
    ∀ c ∈ (chunksL l (n + 1)).dropLast, c.length = n + 1
  | [] => by rw [chunksL]; intro c hc; exact absurd hc (List.not_mem_nil c)
  | x :: xs => by
    intro c hc
    rw [chunksL] at hc
    by_cases hrest : chunksL ((x :: xs).drop (n + 1)) (n + 1) = []
    · rw [hrest] at hc
      exact absurd hc (List.not_mem_nil c)
    · rw [List.dropLast_cons_of_ne_nil hrest] at hc
      rcases List.mem_cons.mp hc with rfl | hmem
      · have hd : (x :: xs).drop (n + 1) ≠ [] := by
          intro hnil
          rw [hnil, chunksL] at hrest
          exact hrest rfl
        have hlen : n + 1 ≤ (x :: xs).length := by
          by_contra hcon
          exact hd (List.drop_eq_nil_of_le (by omega))
        rw [List.length_take]
        omega
      · exact chunksL_dropLast_length n ((x :: xs).drop (n + 1)) c hmem
termination_by l => l.length
decreasing_by simp only [List.length_drop, List.length_cons]; omega

/-! ### Branch unfolding helpers for the dispatcher -/

theorem call_key_unfold (self : GameTool) (env : Env) (t : String) :
    self.call env "key" (some t) none =
      (if pyInStr (lowerStr t).data "wasd".data then
        .ok ([Prim.keyDown (lowerStr t), Prim.sleepSec 1, Prim.keyUp (lowerStr t)],
             outputResult s!"Pressed key: {t}")
      else if pyInStr (lowerStr t).data "abcdefghijklmnopqrstuvwxyz".data then
        .ok ([Prim.press (lowerStr t)], outputResult s!"Pressed key: {t}")
      else if pyInStr t.data "1234567890".data then
        .ok ([Prim.press t], outputResult s!"Pressed key: {t}")
      else if lowerStr t = "return" then
        .ok ([Prim.press "enter"], outputResult s!"Pressed key: {t}")
      else if lowerStr t ∈ ["right-arrow", "right", "left-arrow", "left",
          "up-arrow", "up", "down-arrow", "down"] then
        .ok ([Prim.press (lowerStr (String.mk ((splitOnChar '-' t.data).headD [])))],
             outputResult s!"Pressed key: {t}")
      else
        .ok ([Prim.press (lowerStr t)], outputResult s!"Pressed key: {t}")) := rfl

theorem call_type_unfold (self : GameTool) (env : Env) (t : String) :
    self.call env "type" (some t) none =
      (match screenshotRun env with
      | .error e => .error e
      | .ok shotRes =>
        .ok ((chunks t TYPING_GROUP_SIZE).map (fun c => Prim.write c TYPING_DELAY_MS),
             { output := some s!"Typed: {t}"
               error := none
               base64_image := shotRes.base64_image })) := rfl

theorem call_mouse_move_no_coord (self : GameTool) (env : Env) (text : Option String) :
    self.call env "mouse_move" text none =
      .error "coordinate is required for mouse_move" := rfl

theorem call_mouse_move_with_text (self : GameTool) (env : Env)
    (s : String) (coord : List PyVal) :
    self.call env "mouse_move" (some s) (some coord) =
      .error "text is not accepted for mouse_move" := rfl

theorem call_mouse_move_unfold (self : GameTool) (env : Env) (coord : List PyVal) :
    self.call env "mouse_move" none (some coord) =
      (if coord.length ≠ 2 then
        .error "coordinate must be a tuple of length 2"
      else if ¬ (coord.all PyVal.isNonnegInt) then
        .error "coordinate must be a tuple of non-negative ints"
      else
        match self.scale_coordinates ScalingSource.API
            ((coord.getD 0 (.int 0)).asInt) ((coord.getD 1 (.int 0)).asInt) with
        | .error e => .error e
        | .ok (x, y) => .ok ([Prim.moveTo x y], outputResult s!"Moved mouse to {x},{y}")) := rfl

theorem call_drag_no_coord (self : GameTool) (env : Env) (text : Option String) :
    self.call env "left_click_drag" text none =
      .error "coordinate is required for left_click_drag" := rfl

theorem call_drag_with_text (self : GameTool) (env : Env)
    (s : String) (coord : List PyVal) :
    self.call env "left_click_drag" (some s) (some coord) =
      .error "text is not accepted for left_click_drag" := rfl

theorem call_drag_unfold (self : GameTool) (env : Env) (coord : List PyVal) :
    self.call env "left_click_drag" none (some coord) =
      (if coord.length ≠ 2 then
        .error "coordinate must be a tuple of length 2"
      else if ¬ (coord.all PyVal.isNonnegInt) then
        .error "coordinate must be a tuple of non-negative ints"
      else
        match self.scale_coordinates ScalingSource.API
            ((coord.getD 0 (.int 0)).asInt) ((coord.getD 1 (.int 0)).asInt) with
        | .error e => .error e
        | .ok (x, y) => .ok ([Prim.dragTo x y], outputResult s!"Dragged mouse to {x},{y}")) := rfl

/-- The primitive the minecraft section of `__call__` fires for a
game-control action name. -/
def gamePrim (action : String) : Prim :=
  if action = "left_down" then Prim.mouseDown
  else if action = "left_up" then Prim.mouseUp
  else if beginsWith "hold_arrow_".data action.data then
    Prim.keyDown (String.mk ((splitOnChar '_' action.data).getLastD []))
  else Prim.keyUp (String.mk ((splitOnChar '_' action.data).getLastD []))

/-! ### Claim theorems: the dispatcher -/

/-- Claim C4 counterexample: invoking the game-control action
`left_down` with a non-null `text` does not raise; the dispatcher
performs the action (the minecraft section has no parameter
validation). -/
theorem claim4_counterexample :
    GameTool.call ⟨1920, 1080, true, none⟩ ⟨true, "img", "", "", 0, 0⟩
      "left_down" (some "x") none =
    .ok ([Prim.mouseDown], outputResult "Performed left_down") := rfl

/-- Claim C4 (amended): every game-control action performs its primitive
and reports success whatever `text` and `coordinate` hold; no
validation error is raised for them. -/
theorem claim4_amended (self : GameTool) (env : Env) (action : String)
    (ha : action ∈ ["left_down", "left_up",
      "hold_arrow_up", "release_arrow_up", "hold_arrow_down", "release_arrow_down",
      "hold_arrow_left", "release_arrow_left", "hold_arrow_right", "release_arrow_right"])
    (text : Option String) (coordinate : Option (List PyVal)) :
    self.call env action text coordinate =
      .ok ([gamePrim action], outputResult s!"Performed {action}") := by
  fin_cases ha <;> rfl

/-- Claim C10: the timed hold-then-release branch of action `key` fires
for every text whose lower-casing is a contiguous substring of
`"wasd"` (including multi-character texts and the empty string), and
the held key is the lower-cased text itself. -/
theorem claim10_wasd_substring (self : GameTool) (env : Env) (t : String)
    (hsub : ∃ p q : List Char, "wasd".data = p ++ (lowerStr t).data ++ q) :
    self.call env "key" (some t) none =
      .ok ([Prim.keyDown (lowerStr t), Prim.sleepSec 1, Prim.keyUp (lowerStr t)],
           outputResult s!"Pressed key: {t}") := by
  have hw : pyInStr (lowerStr t).data "wasd".data = true :=
    (pyInStr_iff _ _).mpr hsub
  rw [call_key_unfold, if_pos hw]

/-- Claim C5: action `key` with `"w"` holds the key one second then
releases it; any letter-casing of `"return"` presses `enter`;
`"up-arrow"` presses `up`. -/
theorem claim5_key_examples (self : GameTool) (env : Env) :
    (self.call env "key" (some "w") none =
      .ok ([Prim.keyDown "w", Prim.sleepSec 1, Prim.keyUp "w"],
           outputResult "Pressed key: w")) ∧
    (∀ t : String, lowerStr t = "return" →
      self.call env "key" (some t) none =
        .ok ([Prim.press "enter"], outputResult s!"Pressed key: {t}")) ∧
    (self.call env "key" (some "up-arrow") none =
      .ok ([Prim.press "up"], outputResult "Pressed key: up-arrow")) := by
  refine ⟨rfl, ?_, rfl⟩
  intro t ht
  rw [call_key_unfold, ht]
  have hdig : ¬(pyInStr t.data "1234567890".data = true) := by
    intro hd
    have hfix := lowerStr_of_digits hd
    have hd2 : pyInStr (lowerStr t).data "1234567890".data = true := by
      rw [hfix]; exact hd
    rw [ht] at hd2
    exact absurd hd2 (by decide)
  rw [if_neg (by decide), if_neg (by decide), if_neg hdig, if_pos rfl]

/-- Claim C6: action `type` splits the text into 50-character chunks
(the last possibly shorter) whose concatenation is the original text,
types each with the 12 ms per-character delay, and always attaches a
screenshot to the result. -/
theorem claim6_type_chunks (self : GameTool) (env : Env)
    (hok : env.shotOk = true) (t : String) :
    self.call env "type" (some t) none =
      .ok ((chunks t TYPING_GROUP_SIZE).map (fun c => Prim.write c TYPING_DELAY_MS),
           { output := some s!"Typed: {t}"
             error := none
             base64_image := some env.shot }) ∧
    ((chunks t TYPING_GROUP_SIZE).map String.data).flatten = t.data ∧
    (∀ c ∈ (chunks t TYPING_GROUP_SIZE).dropLast, c.length = TYPING_GROUP_SIZE) ∧
    (∀ c ∈ chunks t TYPING_GROUP_SIZE, c.length ≤ TYPING_GROUP_SIZE) := by
  have hmapdata : (chunks t TYPING_GROUP_SIZE).map String.data =
      chunksL t.data TYPING_GROUP_SIZE := by
    rw [chunks, List.map_map,
      show String.data ∘ String.mk = id from rfl, List.map_id]
  refine ⟨?_, ?_, ?_, ?_⟩
  · rw [call_type_unfold]
    simp only [screenshotRun, hok, if_true]
  · rw [hmapdata]
    exact chunksL_join 49 t.data
  · intro c hc
    rw [chunks, ← List.map_dropLast] at hc
    obtain ⟨c', hc', rfl⟩ := List.mem_map.mp hc
    exact chunksL_dropLast_length 49 t.data c' hc'
  · intro c hc
    rw [chunks] at hc
    obtain ⟨c', hc', rfl⟩ := List.mem_map.mp hc
    exact chunksL_length_le 49 t.data c' hc'

/-- Claim C8: `mouse_move` and `left_click_drag` raise a validation
error whenever the coordinate is omitted, text is provided, the
coordinate is not a 2-element sequence, or it has a negative or
non-integer component; on valid input the coordinate is mapped
agent→physical before the pointer primitive fires. -/
theorem claim8_pointer_validation (self : GameTool) (env : Env) (action : String)
    (ha : action = "mouse_move" ∨ action = "left_click_drag")
    (text : Option String) (coordinate : Option (List PyVal)) :
    ((coordinate = none ∨ text ≠ none ∨
        (∃ l, coordinate = some l ∧ l.length ≠ 2) ∨
        (∃ l v, coordinate = some l ∧ v ∈ l ∧
          (v = PyVal.nonInt ∨ ∃ n : ℤ, v = PyVal.int n ∧ n < 0))) →
      ∃ e, self.call env action text coordinate = .error e) ∧
    (∀ a0 b0 : ℤ, text = none → coordinate = some [PyVal.int a0, PyVal.int b0] →
      0 ≤ a0 → 0 ≤ b0 →
      self.call env action text coordinate =
        (self.scale_coordinates ScalingSource.API a0 b0).map (fun p =>
          ((if action = "mouse_move" then [Prim.moveTo p.1 p.2]
            else [Prim.dragTo p.1 p.2]),
           outputResult (if action = "mouse_move" then s!"Moved mouse to {p.1},{p.2}"
             else s!"Dragged mouse to {p.1},{p.2}")))) := by
  have hallfalse : ∀ (l : List PyVal) (v : PyVal), v ∈ l →
      (v = PyVal.nonInt ∨ ∃ n : ℤ, v = PyVal.int n ∧ n < 0) →
      ¬(l.all PyVal.isNonnegInt = true) := by
    intro l v hv hbadv hall
    rw [List.all_eq_true] at hall
    have hvv := hall v hv
    rcases hbadv with rfl | ⟨n, rfl, hn⟩
    · simp [PyVal.isNonnegInt] at hvv
    · simp [PyVal.isNonnegInt] at hvv
      omega
  rcases ha with rfl | rfl
  · constructor
    · intro hbad
      rcases hbad with rfl | htext | ⟨l, rfl, hlen⟩ | ⟨l, v, rfl, hv, hbadv⟩
      · exact ⟨_, call_mouse_move_no_coord self env text⟩
      · rcases text with _ | s
        · exact absurd rfl htext
        · rcases coordinate with _ | l
          · exact ⟨_, call_mouse_move_no_coord self env (some s)⟩
          · exact ⟨_, call_mouse_move_with_text self env s l⟩
      · rcases text with _ | s
        · exact ⟨_, by rw [call_mouse_move_unfold, if_pos hlen]⟩
        · exact ⟨_, call_mouse_move_with_text self env s l⟩
      · rcases text with _ | s
        · by_cases hlen : l.length ≠ 2
          · exact ⟨_, by rw [call_mouse_move_unfold, if_pos hlen]⟩
          · exact ⟨_, by
              rw [call_mouse_move_unfold, if_neg hlen,
                if_pos (hallfalse l v hv hbadv)]⟩
        · exact ⟨_, call_mouse_move_with_text self env s l⟩
    · intro a0 b0 htext hcoord ha0 hb0
      subst htext
      subst hcoord
      rw [call_mouse_move_unfold]
      rw [if_neg (by simp), if_neg (by simp [PyVal.isNonnegInt, ha0, hb0])]
      have e0 : (([PyVal.int a0, PyVal.int b0].getD 0 (PyVal.int 0)).asInt) = a0 := rfl
      have e1 : (([PyVal.int a0, PyVal.int b0].getD 1 (PyVal.int 0)).asInt) = b0 := rfl
      rw [e0, e1]
      rcases hs : self.scale_coordinates ScalingSource.API a0 b0 with e | p
      · rfl
      · obtain ⟨px, py⟩ := p
        simp [Except.map]
  · constructor
    · intro hbad
      rcases hbad with rfl | htext | ⟨l, rfl, hlen⟩ | ⟨l, v, rfl, hv, hbadv⟩
      · exact ⟨_, call_drag_no_coord self env text⟩
      · rcases text with _ | s
        · exact absurd rfl htext
        · rcases coordinate with _ | l
          · exact ⟨_, call_drag_no_coord self env (some s)⟩
          · exact ⟨_, call_drag_with_text self env s l⟩
      · rcases text with _ | s
        · exact ⟨_, by rw [call_drag_unfold, if_pos hlen]⟩
        · exact ⟨_, call_drag_with_text self env s l⟩
      · rcases text with _ | s
        · by_cases hlen : l.length ≠ 2
          · exact ⟨_, by rw [call_drag_unfold, if_pos hlen]⟩
          · exact ⟨_, by
              rw [call_drag_unfold, if_neg hlen,
                if_pos (hallfalse l v hv hbadv)]⟩
        · exact ⟨_, call_drag_with_text self env s l⟩
    · intro a0 b0 htext hcoord ha0 hb0
      subst htext
      subst hcoord
      rw [call_drag_unfold]
      rw [if_neg (by simp), if_neg (by simp [PyVal.isNonnegInt, ha0, hb0])]
      have e0 : (([PyVal.int a0, PyVal.int b0].getD 0 (PyVal.int 0)).asInt) = a0 := rfl
      have e1 : (([PyVal.int a0, PyVal.int b0].getD 1 (PyVal.int 0)).asInt) = b0 := rfl
      rw [e0, e1]
      rcases hs : self.scale_coordinates ScalingSource.API a0 b0 with e | p
      · rfl
      · obtain ⟨px, py⟩ := p
        simp [Except.map]

/-! ### Concrete evaluations and witnesses -/

theorem selectTarget_1920_1080 : selectTarget 1920 1080 = some ⟨1366, 768⟩ := by
  norm_num [selectTarget, findTarget, MAX_SCALING_TARGETS, ratioNear, abs_lt]

theorem claim1_witness :
    ∃ p q : ℤ × ℤ,
      GameTool.scale_coordinates ⟨1920, 1080, true, none⟩ ScalingSource.API 960 540 = .ok p ∧
      GameTool.scale_coordinates ⟨1920, 1080, true, none⟩ ScalingSource.COMPUTER p.1 p.2 = .ok q ∧
      |q.1 - 960| ≤ 1 ∧ |q.2 - 540| ≤ 1 :=
  claim1_roundtrip ⟨1920, 1080, true, none⟩ ⟨1366, 768⟩ rfl selectTarget_1920_1080
    960 540 (by norm_num) (by norm_num) (by norm_num) (by norm_num)

theorem claim2_witness :
    selectTarget 1024 768 = none ∧
    GameTool.scale_coordinates ⟨1024, 768, true, none⟩ ScalingSource.API 3 4 = .ok (3, 4) := by
  have h := claim2_short_circuit ⟨1024, 768, true, none⟩ ⟨1024, 768⟩
    (FirstMatch.head (by norm_num [ratioNear])) (by norm_num)
  exact ⟨h.1, h.2 ScalingSource.API 3 4⟩

theorem claim3_witness :
    GameTool.scale_coordinates ⟨1920, 1080, true, none⟩ ScalingSource.API 100 50 = .ok (141, 70) ∧
    (GameTool.scale_coordinates ⟨1920, 1080, true, none⟩ ScalingSource.API 2000 0).isOk = false := by
  have h1 := claim3_api_bounds ⟨1920, 1080, true, none⟩ ⟨1366, 768⟩ rfl
    selectTarget_1920_1080 100 50
  have h2 := claim3_api_bounds ⟨1920, 1080, true, none⟩ ⟨1366, 768⟩ rfl
    selectTarget_1920_1080 2000 0
  constructor
  · have h3 := h1.2 (by norm_num) (by norm_num)
    rw [h3]
    norm_num [pyRound]
  · obtain ⟨e, he⟩ := h2.1.mpr (Or.inl (by norm_num))
    rw [he]
    rfl

theorem claim4_witness :
    GameTool.call ⟨1920, 1080, true, none⟩ ⟨true, "img", "out", "err", 0, 0⟩
      "hold_arrow_left" (some "zz") (some [PyVal.nonInt]) =
      .ok ([Prim.keyDown "left"], outputResult "Performed hold_arrow_left") := by
  have h := claim4_amended ⟨1920, 1080, true, none⟩ ⟨true, "img", "out", "err", 0, 0⟩
    "hold_arrow_left" (by simp) (some "zz") (some [PyVal.nonInt])
  rw [h]
  rfl

theorem claim5_witness :
    GameTool.call ⟨1920, 1080, true, none⟩ ⟨true, "img", "out", "err", 0, 0⟩
      "key" (some "RETURN") none =
      .ok ([Prim.press "enter"], outputResult "Pressed key: RETURN") := by
  have h := (claim5_key_examples ⟨1920, 1080, true, none⟩
    ⟨true, "img", "out", "err", 0, 0⟩).2.1 "RETURN" (by rfl)
  exact h

theorem claim6_witness :
    GameTool.call ⟨1920, 1080, true, none⟩ ⟨true, "img", "out", "err", 0, 0⟩
      "type" (some "hello") none =
      .ok ([Prim.write "hello" 12],
        { output := some "Typed: hello", error := none, base64_image := some "img" }) := by
  have h := (claim6_type_chunks ⟨1920, 1080, true, none⟩
    ⟨true, "img", "out", "err", 0, 0⟩ rfl "hello").1
  rw [h]
  have hc : chunks "hello" TYPING_GROUP_SIZE = ["hello"] := by
    simp [chunks, chunksL, TYPING_GROUP_SIZE]
  rw [hc]
  rfl

theorem claim7_witness :
    GameTool.scale_coordinates ⟨1920, 1080, false, none⟩ ScalingSource.API 5 7 = .ok (5, 7) :=
  claim7_disabled_identity ⟨1920, 1080, false, none⟩ rfl ScalingSource.API 5 7

theorem claim8_witness :
    (GameTool.call ⟨1920, 1080, true, none⟩ ⟨true, "img", "out", "err", 0, 0⟩
      "mouse_move" (some "x") (some [PyVal.int 1, PyVal.int 2])).isOk = false ∧
    GameTool.call ⟨1920, 1080, true, none⟩ ⟨true, "img", "out", "err", 0, 0⟩
      "mouse_move" none (some [PyVal.int 1, PyVal.int 2]) =
      .ok ([Prim.moveTo 1 3], outputResult "Moved mouse to 1,3") := by
  constructor
  · obtain ⟨e, he⟩ := (claim8_pointer_validation ⟨1920, 1080, true, none⟩
      ⟨true, "img", "out", "err", 0, 0⟩ "mouse_move" (Or.inl rfl)
      (some "x") (some [PyVal.int 1, PyVal.int 2])).1 (Or.inr (Or.inl (by simp)))
    rw [he]
    rfl
  · have h := (claim8_pointer_validation ⟨1920, 1080, true, none⟩
      ⟨true, "img", "out", "err", 0, 0⟩ "mouse_move" (Or.inl rfl)
      none (some [PyVal.int 1, PyVal.int 2])).2 1 2 rfl rfl
      (by norm_num) (by norm_num)
    rw [h]
    have hs : GameTool.scale_coordinates ⟨1920, 1080, true, none⟩ ScalingSource.API 1 2 =
        .ok (1, 3) := by
      norm_num [GameTool.scale_coordinates, selectTarget, findTarget,
        MAX_SCALING_TARGETS, ratioNear, abs_lt, pyRound]
    rw [hs]
    rfl

theorem claim9_witness :
    GameTool.options ⟨1920, 1080, true, none⟩ =
      .ok { display_width_px := 1366, display_height_px := 768, display_number := none } ∧
    GameTool.options ⟨800, 600, false, some 1⟩ =
      .ok { display_width_px := 800, display_height_px := 600, display_number := some 1 } := by
  constructor
  · exact ((claim9_options ⟨1920, 1080, true, none⟩).1 ⟨1366, 768⟩ rfl
      selectTarget_1920_1080).1
  · exact (claim9_options ⟨800, 600, false, some 1⟩).2 (Or.inl rfl)

theorem claim10_witness :
    GameTool.call ⟨1920, 1080, true, none⟩ ⟨true, "img", "out", "err", 0, 0⟩
      "key" (some "AS") none =
      .ok ([Prim.keyDown "as", Prim.sleepSec 1, Prim.keyUp "as"],
           outputResult "Pressed key: AS") := by
  have h := claim10_wasd_substring ⟨1920, 1080, true, none⟩
    ⟨true, "img", "out", "err", 0, 0⟩ "AS" ⟨['w'], ['d'], rfl⟩
  exact h

end MCU
